import Mathlib

/-!
Verification of the GraviTool asset-packaging pipeline.

The repository contains two near-identical application copies,
`src/gravitool_main.py` and `src/cnpmodtool.py`.  The pure string
manipulation (mod-name slugification, flatlist manifest text, logical
entry names) is embedded directly as functions on `List Char`.  The
file-system- and subprocess-touching operations
(`run_starter_command`, `_package_asset_archive`,
`_generate_desc_addpack_file`) are embedded as oracle-driven
interpreters: the oracle records what the outside world does (does a
source file exist at copy time, does a copy succeed, does the external
tool exit with code 0, ...) and the interpreter returns the function's
return value together with the ordered list of file-system effects it
performed.  Character classes model the ASCII behaviour of Python's
`\w` and `\s` regex classes and of `str.strip`.

Definitions in namespace `GT` are translated from
`src/gravitool_main.py`, those in namespace `CNP` from
`src/cnpmodtool.py`; definitions outside both namespaces are shared
code that is literally identical in the two files.
-/

/-- Model of Python's regex class `\w` (ASCII part): letters, digits and
underscore. -/
def pyWordChar (c : Char) : Bool := c.isAlphanum || c == '_'

/-- Model of Python's regex class `\s` (ASCII part) and of the default
`str.strip` character set. -/
def pySpaceChar (c : Char) : Bool :=
  c == ' ' || c == '\t' || c == '\n' || c == '\r' || c == '\x0b' || c == '\x0c'

/-- Characters kept unchanged by `re.sub(r'[^\w\s_-]', '_', ...)`: the
complement character class of that substitution. -/
def slugKeep (c : Char) : Bool := pyWordChar c || pySpaceChar c || c == '_' || c == '-'

/-- Embedding of `re.sub(r'[^\w\s_-]', '_', s)`: every character outside
the kept class becomes an underscore. -/
def replaceInvalid (s : List Char) : List Char :=
  s.map (fun c => if slugKeep c then c else '_')

/-- Embedding of Python `str.strip()`: drop whitespace from both ends. -/
def stripWs (s : List Char) : List Char :=
  ((s.dropWhile pySpaceChar).reverse.dropWhile pySpaceChar).reverse

/-- Worker for `re.sub(r'\s+', '_', s)`: the Boolean flag records whether
the previous character was part of a whitespace run already replaced. -/
def collapseWsAux : Bool → List Char → List Char
  | _, [] => []
  | prevSpace, c :: rest =>
    if pySpaceChar c then
      if prevSpace then collapseWsAux true rest else '_' :: collapseWsAux true rest
    else c :: collapseWsAux false rest

/-- Embedding of `re.sub(r'\s+', '_', s)`: each maximal whitespace run is
replaced by a single underscore. -/
def collapseWs (s : List Char) : List Char := collapseWsAux false s

/-- Embedding of the mod-name slugification performed identically in both
files inside `_generate_desc_addpack_file` (and in `create_mod_archive`):
`re.sub(r'[^\w\s_-]', '_', mod_name).strip()`, then
`re.sub(r'\s+', '_', ...)`, with fallback `"MyMod"` when empty. -/
def sanitizedModNameForPath (modName : List Char) : List Char :=
  let t := collapseWs (stripWs (replaceInvalid modName))
  if t.isEmpty then "MyMod".toList else t

theorem mem_replaceInvalid_keep {c : Char} {s : List Char}
    (h : c ∈ replaceInvalid s) : slugKeep c = true := by
  rcases List.mem_map.1 h with ⟨a, _, rfl⟩
  by_cases hk : slugKeep a = true
  · simp [hk]
  · simp only [Bool.not_eq_true] at hk
    simp [hk]
    decide

theorem mem_of_mem_dropWhile {c : Char} {q : Char → Bool} :
    ∀ {l : List Char}, c ∈ l.dropWhile q → c ∈ l := by
  intro l h
  induction l with
  | nil => simp [List.dropWhile] at h
  | cons a l ih =>
    rw [List.dropWhile] at h
    by_cases hq : q a = true
    · simp [hq] at h
      exact List.mem_cons_of_mem a (ih h)
    · simp only [Bool.not_eq_true] at hq
      simpa [hq] using h

theorem mem_of_mem_stripWs {c : Char} {s : List Char}
    (h : c ∈ stripWs s) : c ∈ s := by
  unfold stripWs at h
  rw [List.mem_reverse] at h
  have h1 := mem_of_mem_dropWhile h
  rw [List.mem_reverse] at h1
  exact mem_of_mem_dropWhile h1

theorem mem_collapseWsAux {c : Char} :
    ∀ {b : Bool} {s : List Char}, c ∈ collapseWsAux b s →
      c = '_' ∨ (c ∈ s ∧ pySpaceChar c = false) := by
  intro b s
  induction s generalizing b with
  | nil => intro h; simp [collapseWsAux] at h
  | cons a l ih =>
    intro h
    rw [collapseWsAux] at h
    by_cases hsp : pySpaceChar a = true
    · rw [if_pos hsp] at h
      by_cases hb : b = true
      · rw [if_pos hb] at h
        rcases ih h with h1 | ⟨h2, h3⟩
        · exact Or.inl h1
        · exact Or.inr ⟨List.mem_cons_of_mem a h2, h3⟩
      · simp only [Bool.not_eq_true] at hb
        rw [hb, if_neg (by simp)] at h
        rcases List.mem_cons.1 h with h1 | h1
        · exact Or.inl h1
        · rcases ih h1 with h2 | ⟨h3, h4⟩
          · exact Or.inl h2
          · exact Or.inr ⟨List.mem_cons_of_mem a h3, h4⟩
    · simp only [Bool.not_eq_true] at hsp
      rw [if_neg (by simp [hsp])] at h
      rcases List.mem_cons.1 h with h1 | h1
      · subst h1; exact Or.inr ⟨List.mem_cons_self _ _, hsp⟩
      · rcases ih h1 with h2 | ⟨h3, h4⟩
        · exact Or.inl h2
        · exact Or.inr ⟨List.mem_cons_of_mem a h3, h4⟩

/-- Every character of the slug is a kept, non-whitespace character. -/
theorem mem_sanitized_char {c : Char} {s : List Char}
    (h : c ∈ sanitizedModNameForPath s) :
    slugKeep c = true ∧ pySpaceChar c = false := by
  by_cases he : (collapseWs (stripWs (replaceInvalid s))).isEmpty = true
  · simp only [sanitizedModNameForPath, he, if_true] at h
    fin_cases h <;> decide
  · simp only [Bool.not_eq_true] at he
    simp only [sanitizedModNameForPath, he, Bool.false_eq_true, if_false] at h
    rcases mem_collapseWsAux h with h1 | ⟨h2, h3⟩
    · subst h1; exact ⟨by decide, by decide⟩
    · exact ⟨mem_replaceInvalid_keep (mem_of_mem_stripWs h2), h3⟩

theorem replaceInvalid_fixed {s : List Char}
    (h : ∀ c ∈ s, slugKeep c = true) : replaceInvalid s = s := by
  unfold replaceInvalid
  induction s with
  | nil => rfl
  | cons a l ih =>
    simp only [List.map_cons]
    rw [if_pos (h a (List.mem_cons_self _ _)), ih (fun c hc => h c (List.mem_cons_of_mem a hc))]

theorem dropWhile_fixed {q : Char → Bool} {s : List Char}
    (h : ∀ c ∈ s, q c = false) : s.dropWhile q = s := by
  cases s with
  | nil => rfl
  | cons a l =>
    rw [List.dropWhile]
    rw [h a (List.mem_cons_self _ _)]

theorem stripWs_fixed {s : List Char}
    (h : ∀ c ∈ s, pySpaceChar c = false) : stripWs s = s := by
  unfold stripWs
  rw [dropWhile_fixed h, dropWhile_fixed (fun c hc => h c (List.mem_reverse.1 hc)),
    List.reverse_reverse]

theorem collapseWsAux_fixed {s : List Char}
    (h : ∀ c ∈ s, pySpaceChar c = false) : ∀ b, collapseWsAux b s = s := by
  induction s with
  | nil => intro b; rfl
  | cons a l ih =>
    intro b
    rw [collapseWsAux, if_neg (by simp [h a (List.mem_cons_self _ _)]),
      ih (fun c hc => h c (List.mem_cons_of_mem a hc))]

theorem sanitized_ne_nil (s : List Char) : sanitizedModNameForPath s ≠ [] := by
  by_cases he : (collapseWs (stripWs (replaceInvalid s))).isEmpty = true
  · simp only [sanitizedModNameForPath, he, if_true]
    decide
  · simp only [Bool.not_eq_true] at he
    simp only [sanitizedModNameForPath, he, Bool.false_eq_true, if_false]
    intro hnil
    rw [hnil] at he
    simp at he

theorem sanitized_fixed {t : List Char} (hne : t ≠ [])
    (h : ∀ c ∈ t, slugKeep c = true ∧ pySpaceChar c = false) :
    sanitizedModNameForPath t = t := by
  show (if (collapseWs (stripWs (replaceInvalid t))).isEmpty = true
      then "MyMod".toList else collapseWs (stripWs (replaceInvalid t))) = t
  rw [replaceInvalid_fixed (fun c hc => (h c hc).1),
    stripWs_fixed (fun c hc => (h c hc).2),
    collapseWs, collapseWsAux_fixed (fun c hc => (h c hc).2)]
  rw [if_neg (by simp [hne])]

theorem sanitized_idem (s : List Char) :
    sanitizedModNameForPath (sanitizedModNameForPath s) = sanitizedModNameForPath s :=
  sanitized_fixed (sanitized_ne_nil s) (fun _ hc => mem_sanitized_char hc)

/-- Configuration state read by `run_starter_command` (the module-level
globals `STARTER_EXE_PATH` and `GAME_ROOT_DIR` together with what the
file system answers for them): `starterExeExists` models
`os.path.exists(STARTER_EXE_PATH)` and `gameRootIsDir` models
`os.path.isdir(GAME_ROOT_DIR)` (both are `false` in particular when the
path does not exist at all). -/
structure StarterEnv where
  starterExePath : List Char
  starterExeExists : Bool
  gameRootDir : List Char
  gameRootIsDir : Bool

/-- Behaviour of the spawned `starter.exe` process, as observed by
`subprocess`: whether `communicate` raised `TimeoutExpired`, whether any
other exception was raised while running the command, and the exit
code. -/
structure ProcRun where
  timedOut : Bool
  raised : Bool
  exitCode : Int

/-- Return value of `run_starter_command` (the `(bool, str_or_None)`
tuple) together with whether a subprocess was launched at all. -/
structure StarterResult where
  success : Bool
  outputPath : Option (List Char)
  spawned : Bool
  deriving DecidableEq

/-- Model of `os.path.join(a, b)` for a single component, posix style:
an absolute second component replaces the first, otherwise the two are
joined with a separator. -/
def osJoin (a b : List Char) : List Char :=
  if b.head? = some '/' then b
  else if a = [] ∨ a.getLast? = some '/' then a ++ b
  else a ++ '/' :: b

/-- Embedding of `run_starter_command` (identical in both files).  The
params list holds `str` or `None` elements exactly as the Python list
does.  The comma-joined command string is passed only to the spawned
process and is not otherwise observable, so it is not recorded in the
result. -/
def run_starter_command (env : StarterEnv) (commandName : List Char)
    (paramsList : List (Option (List Char))) (proc : ProcRun) : StarterResult :=
  if env.starterExePath.isEmpty || !env.starterExeExists then ⟨false, none, false⟩
  else if env.gameRootDir.isEmpty || !env.gameRootIsDir then ⟨false, none, false⟩
  else if proc.timedOut then ⟨false, none, true⟩
  else if proc.raised then ⟨false, none, true⟩
  else if proc.exitCode != 0 then ⟨false, none, true⟩
  else if commandName == "unflat".toList then
    match paramsList.get? 1 with
    | some (some p) =>
      if p.isEmpty then ⟨true, none, true⟩
      else ⟨true, some (osJoin env.gameRootDir p), true⟩
    | _ => ⟨true, none, true⟩
  else ⟨true, none, true⟩

/-- Claim C6: for every command name, parameter list and process
behaviour, if the configured game root directory is not an existing
directory or the starter executable is absent, `run_starter_command`
returns the failure result with no output path and no subprocess is
launched. -/
theorem run_starter_command_config_failure
    (env : StarterEnv) (commandName : List Char)
    (paramsList : List (Option (List Char))) (proc : ProcRun)
    (h : env.gameRootIsDir = false ∨ env.starterExeExists = false) :
    run_starter_command env commandName paramsList proc
      = ⟨false, none, false⟩ := by
  unfold run_starter_command
  rcases h with h | h
  · by_cases h1 : (env.starterExePath.isEmpty || !env.starterExeExists) = true
    · rw [if_pos h1]
    · rw [if_neg h1, if_pos (by simp [h])]
  · rw [if_pos (by simp [h])]

/-- Witness for claim C6 at a concrete configuration whose game root is
not a directory. -/
theorem run_starter_command_config_failure_case :
    run_starter_command
        ⟨"/game/starter.exe".toList, true, "/game".toList, false⟩
        "mkflat".toList [] ⟨false, false, 0⟩
      = ⟨false, none, false⟩ :=
  run_starter_command_config_failure _ _ _ _ (Or.inl rfl)

/-- Claim C8: whenever `run_starter_command` actually launched the
subprocess and it finished without timeout or exception with exit code
zero, the result is a success; it carries the root directory joined
with the second parameter exactly when the command is `unflat` and that
second parameter is a non-empty string, and carries no output path in
every other case. -/
theorem run_starter_command_success_output
    (env : StarterEnv) (commandName : List Char)
    (paramsList : List (Option (List Char))) (proc : ProcRun)
    (hspawn : (run_starter_command env commandName paramsList proc).spawned = true)
    (ht : proc.timedOut = false) (hr : proc.raised = false)
    (hc : proc.exitCode = 0) :
    (run_starter_command env commandName paramsList proc).success = true ∧
    (∀ p, commandName = "unflat".toList → paramsList.get? 1 = some (some p) →
      p ≠ [] →
      (run_starter_command env commandName paramsList proc).outputPath
        = some (osJoin env.gameRootDir p)) ∧
    (¬(commandName = "unflat".toList ∧
        ∃ p, paramsList.get? 1 = some (some p) ∧ p ≠ []) →
      (run_starter_command env commandName paramsList proc).outputPath = none) := by
  by_cases h1 : (env.starterExePath.isEmpty || !env.starterExeExists) = true
  · rw [run_starter_command, if_pos h1] at hspawn
    simp at hspawn
  · by_cases h2 : (env.gameRootDir.isEmpty || !env.gameRootIsDir) = true
    · rw [run_starter_command, if_neg h1, if_pos h2] at hspawn
      simp at hspawn
    · rw [Bool.not_eq_true] at h1 h2
      by_cases hcmd : commandName = "unflat".toList
      · cases hp : paramsList.get? 1 with
        | none =>
          have hres : run_starter_command env commandName paramsList proc
              = ⟨true, none, true⟩ := by
            simp only [run_starter_command, h1, h2, ht, hr, hc, hcmd, hp,
              Bool.false_eq_true, if_false, bne_self_eq_false, beq_self_eq_true,
              if_true]
          rw [hres]
          refine ⟨rfl, ?_, fun _ => rfl⟩
          intro q _ hq _
          simp at hq
        | some o =>
          cases o with
          | none =>
            have hres : run_starter_command env commandName paramsList proc
                = ⟨true, none, true⟩ := by
              simp only [run_starter_command, h1, h2, ht, hr, hc, hcmd, hp,
                Bool.false_eq_true, if_false, bne_self_eq_false, beq_self_eq_true,
                if_true]
            rw [hres]
            refine ⟨rfl, ?_, fun _ => rfl⟩
            intro q _ hq _
            simp at hq
          | some p =>
            by_cases hpe : p.isEmpty = true
            · have hres : run_starter_command env commandName paramsList proc
                  = ⟨true, none, true⟩ := by
                simp only [run_starter_command, h1, h2, ht, hr, hc, hcmd, hp, hpe,
                  Bool.false_eq_true, if_false, bne_self_eq_false, beq_self_eq_true,
                  if_true]
              rw [hres]
              refine ⟨rfl, ?_, fun _ => rfl⟩
              intro q _ hq hqne
              simp only [Option.some.injEq] at hq
              subst hq
              exact absurd (List.isEmpty_iff.1 hpe) hqne
            · rw [Bool.not_eq_true] at hpe
              have hres : run_starter_command env commandName paramsList proc
                  = ⟨true, some (osJoin env.gameRootDir p), true⟩ := by
                simp only [run_starter_command, h1, h2, ht, hr, hc, hcmd, hp, hpe,
                  Bool.false_eq_true, if_false, bne_self_eq_false, beq_self_eq_true,
                  if_true]
              have hpne : p ≠ [] := by
                intro hnil
                rw [hnil] at hpe
                simp at hpe
              rw [hres]
              refine ⟨rfl, ?_, ?_⟩
              · intro q _ hq _
                simp only [Option.some.injEq] at hq
                subst hq
                rfl
              · intro hno
                exact absurd ⟨hcmd, p, rfl, hpne⟩ hno
      · have hcmdb : (commandName == "unflat".toList) = false :=
          beq_eq_false_iff_ne.2 hcmd
        have hres : run_starter_command env commandName paramsList proc
            = ⟨true, none, true⟩ := by
          simp only [run_starter_command, h1, h2, ht, hr, hc, hcmdb,
            Bool.false_eq_true, if_false, bne_self_eq_false]
        rw [hres]
        exact ⟨rfl, fun q hq => absurd hq hcmd, fun _ => rfl⟩

/-- Witness for claim C8 at a concrete successful `unflat` invocation
with a non-empty second parameter. -/
theorem run_starter_command_success_output_case :
    (run_starter_command
        ⟨"/game/starter.exe".toList, true, "/game".toList, true⟩
        "unflat".toList [some "data.flatdata".toList, some "outdir".toList]
        ⟨false, false, 0⟩).outputPath
      = some (osJoin "/game".toList "outdir".toList) :=
  (run_starter_command_success_output _ _ _ _ (by decide) rfl rfl rfl).2.1
    "outdir".toList rfl rfl (by decide)

/-- Model of Python `str.lower()` (ASCII behaviour). -/
def lowerList (s : List Char) : List Char := s.map Char.toLower

/-- Model of `os.path.splitext(s)[0]` for a plain filename (no directory
separators): the part before the last dot, except that a name whose
characters before that dot are all dots (e.g. a leading-dot name like
`".bashrc"`) is returned whole. -/
def splitextStem (s : List Char) : List Char :=
  match s.reverse.findIdx? (· == '.') with
  | none => s
  | some k =>
    let i := s.length - 1 - k
    if (s.take i).any (· != '.') then s.take i else s

/-- Fixed flatlist header written by both `_package_asset_archive`
versions: the line `i_unflat:unflat()` followed by an opening brace. -/
def flatlistHeader : List Char := "i_unflat:unflat()\n\x7b\n".toList

/-- Closing brace line of the flatlist. -/
def flatlistClose : List Char := "\x7d\n".toList

/-- The `flatlist_content` accumulation loop shared by both versions of
`_package_asset_archive`: starting from the header already in the
accumulator, append one line per staged filename, in order. -/
def flatlistAccum (line : List Char → List Char) :
    List Char → List (List Char) → List Char
  | acc, [] => acc
  | acc, n :: rest => flatlistAccum line (acc ++ line n) rest

namespace GT

/-- Logical entry name in `gravitool_main.py`: strip the compound
suffix `.loc_def.sound`, else the suffix `.texture`, matched on the
lowercased filename; any other staged filename is used unchanged. -/
def flatlistEntryName (stagingFilename : List Char) : List Char :=
  if List.isSuffixOf ".loc_def.sound".toList (lowerList stagingFilename) then
    stagingFilename.take (stagingFilename.length - ".loc_def.sound".length)
  else if List.isSuffixOf ".texture".toList (lowerList stagingFilename) then
    stagingFilename.take (stagingFilename.length - ".texture".length)
  else stagingFilename

/-- One flatlist line of `gravitool_main.py`:
four spaces, the entry name, tab-comma-space, the mkflat type,
tab-comma-space, `loc_def ;` and a newline. -/
def entryLine (mkflatFileType stagingFilename : List Char) : List Char :=
  "    ".toList ++ flatlistEntryName stagingFilename ++ "\t, ".toList
    ++ mkflatFileType ++ "\t, loc_def ;\n".toList

/-- The complete flatlist text `gravitool_main.py` writes for the given
staged filenames. -/
def buildFlatlist (mkflatFileType : List Char) (names : List (List Char)) : List Char :=
  flatlistAccum (entryLine mkflatFileType) flatlistHeader names ++ flatlistClose

end GT

namespace CNP

/-- Logical entry name in `cnpmodtool.py`:
`os.path.splitext(staging_filename)[0]`, then strip a trailing
`.loc_def` matched on the lowercased stem. -/
def flatlistEntryName (stagingFilename : List Char) : List Char :=
  let stem := splitextStem stagingFilename
  if List.isSuffixOf ".loc_def".toList (lowerList stem) then
    stem.take (stem.length - ".loc_def".length)
  else stem

/-- One flatlist line of `cnpmodtool.py` (same shape as in
`gravitool_main.py`, with this file's entry name). -/
def entryLine (mkflatFileType stagingFilename : List Char) : List Char :=
  "    ".toList ++ flatlistEntryName stagingFilename ++ "\t, ".toList
    ++ mkflatFileType ++ "\t, loc_def ;\n".toList

/-- The complete flatlist text `cnpmodtool.py` writes for the given
staged filenames. -/
def buildFlatlist (mkflatFileType : List Char) (names : List (List Char)) : List Char :=
  flatlistAccum (entryLine mkflatFileType) flatlistHeader names ++ flatlistClose

end CNP

theorem flatlistAccum_eq (line : List Char → List Char) :
    ∀ (names : List (List Char)) (acc : List Char),
      flatlistAccum line acc names = acc ++ (names.map line).flatten := by
  intro names
  induction names with
  | nil => intro acc; simp [flatlistAccum]
  | cons n rest ih =>
    intro acc
    rw [flatlistAccum, ih]
    simp

/-- Claim C7: in both files the manifest text is exactly the header
line `i_unflat:unflat()` and an opening brace, then one line per entry
of the form `    <logical_name>\t, <declared_type>\t, loc_def ;` in
input order, then a closing brace; as a pure function of the entry
sequence it is deterministic, so identical inputs give byte-identical
text. -/
theorem buildFlatlist_shape (mkflatFileType : List Char)
    (names : List (List Char)) :
    GT.buildFlatlist mkflatFileType names
        = "i_unflat:unflat()\n\x7b\n".toList
          ++ (names.map (fun n => "    ".toList ++ GT.flatlistEntryName n
                ++ "\t, ".toList ++ mkflatFileType ++ "\t, loc_def ;\n".toList)).flatten
          ++ "\x7d\n".toList ∧
      CNP.buildFlatlist mkflatFileType names
        = "i_unflat:unflat()\n\x7b\n".toList
          ++ (names.map (fun n => "    ".toList ++ CNP.flatlistEntryName n
                ++ "\t, ".toList ++ mkflatFileType ++ "\t, loc_def ;\n".toList)).flatten
          ++ "\x7d\n".toList := by
  constructor
  · rw [GT.buildFlatlist, flatlistAccum_eq]
    rfl
  · rw [CNP.buildFlatlist, flatlistAccum_eq]
    rfl

/-- Modelled from the claim's words, for comparison with the source
definitions: strip the known compound suffix `.loc_def.sound` or
`.texture` when the filename ends with one, otherwise strip the plain
(single) extension. -/
def specLogicalName (stagingFilename : List Char) : List Char :=
  if List.isSuffixOf ".loc_def.sound".toList stagingFilename then
    stagingFilename.take (stagingFilename.length - ".loc_def.sound".length)
  else if List.isSuffixOf ".texture".toList stagingFilename then
    stagingFilename.take (stagingFilename.length - ".texture".length)
  else splitextStem stagingFilename

/-- Counterexample to claim C4: for the staged filename `boom.aaf`,
which matches no known compound suffix, `gravitool_main.py` keeps the
name unchanged (`boom.aaf`) instead of stripping the plain extension to
`boom` as the claim states. -/
theorem flatlistEntryName_claim_false :
    GT.flatlistEntryName "boom.aaf".toList ≠ specLogicalName "boom.aaf".toList := by
  decide

/-- Claim C4 as amended: `cnpmodtool.py` strips the plain extension and
then a trailing `.loc_def` (so the known compound suffixes behave as
claimed), while `gravitool_main.py` strips only the known suffixes
`.loc_def.sound` and `.texture` (matched case-insensitively) and keeps
any other staged filename unchanged, with no plain-extension
stripping. -/
theorem flatlistEntryName_amended :
    (∀ n : List Char,
        List.isSuffixOf ".loc_def.sound".toList (lowerList n) = false →
        List.isSuffixOf ".texture".toList (lowerList n) = false →
        GT.flatlistEntryName n = n) ∧
    GT.flatlistEntryName "shot.loc_def.sound".toList = "shot".toList ∧
    GT.flatlistEntryName "Wall.TEXTURE".toList = "Wall".toList ∧
    GT.flatlistEntryName "boom.aaf".toList = "boom.aaf".toList ∧
    CNP.flatlistEntryName "shot.loc_def.sound".toList = "shot".toList ∧
    CNP.flatlistEntryName "wall.texture".toList = "wall".toList ∧
    CNP.flatlistEntryName "boom.aaf".toList = "boom".toList ∧
    CNP.flatlistEntryName "boom.aaf".toList = specLogicalName "boom.aaf".toList := by
  refine ⟨?_, by decide, by decide, by decide, by decide, by decide, by decide, by decide⟩
  intro n h1 h2
  simp only [GT.flatlistEntryName, h1, h2, Bool.false_eq_true, if_false]

/-- Witness for the amended claim C4 at the filename `boom.aaf`, whose
suffix matches none of the known compound suffixes. -/
theorem flatlistEntryName_amended_case :
    GT.flatlistEntryName "boom.aaf".toList = "boom.aaf".toList :=
  flatlistEntryName_amended.1 "boom.aaf".toList (by decide) (by decide)

/-- Counterexample to claim C3: slugifying `"My Mod! v2"` does not give
`"My_Mod_v2"` — the exclamation mark becomes an underscore of its own
before whitespace is collapsed, so an extra underscore remains. -/
theorem sanitizedModName_example_claim_false :
    sanitizedModNameForPath "My Mod! v2".toList ≠ "My_Mod_v2".toList := by
  decide

/-- Claim C3 as amended: slugification replaces each character outside
letters, digits, underscore, hyphen and whitespace by an underscore,
trims, then collapses each whitespace run to one underscore; for the
input `"My Mod! v2"` the resulting install-path slug is exactly
`"My_Mod__v2"`. -/
theorem sanitizedModName_example_amended :
    sanitizedModNameForPath "My Mod! v2".toList = "My_Mod__v2".toList := by
  decide

/-- Claim C10: slugification is total and idempotent — every input
(including empty, all-whitespace and all-invalid strings) yields a
non-empty result whose characters are letters, digits, underscores or
hyphens, and re-slugifying the result leaves it unchanged. -/
theorem sanitized_total_idempotent (s : List Char) :
    sanitizedModNameForPath s ≠ [] ∧
    (∀ c ∈ sanitizedModNameForPath s, (c.isAlphanum || c == '_' || c == '-') = true) ∧
    sanitizedModNameForPath (sanitizedModNameForPath s) = sanitizedModNameForPath s := by
  refine ⟨sanitized_ne_nil s, ?_, sanitized_idem s⟩
  intro c hc
  rcases mem_sanitized_char hc with ⟨hk, hs⟩
  simp only [slugKeep, pyWordChar, Bool.or_eq_true] at hk
  rcases hk with (((h | h) | h) | h) | h
  · simp [h]
  · simp [h]
  · exact absurd h (by simp [hs])
  · simp [h]
  · simp [h]

/-- Witness for claim C10 at an all-invalid, whitespace-padded input. -/
theorem sanitized_total_idempotent_case :
    sanitizedModNameForPath "  !!  ".toList ≠ [] ∧
    sanitizedModNameForPath (sanitizedModNameForPath "  !!  ".toList)
      = sanitizedModNameForPath "  !!  ".toList :=
  ⟨(sanitized_total_idempotent "  !!  ".toList).1,
    (sanitized_total_idempotent "  !!  ".toList).2.2⟩

/-- One `(abs_src_path_in_project, staging_filename)` pair passed to
`_package_asset_archive`, together with what the file system does with
it at copy time: `srcExists` models `os.path.exists(abs_src_path)` and
`copyOk` whether `shutil.copy2` succeeds when it is attempted. -/
structure PkgEntry where
  srcPath : List Char
  stagingName : List Char
  srcExists : Bool
  copyOk : Bool
  deriving DecidableEq

/-- Outside-world behaviour for the remaining steps of
`_package_asset_archive`: whether writing the `.!flatlist` file
succeeds, whether `run_starter_command("mkflat", ...)` reports success,
whether the `.flatdata` output then exists in staging, and whether the
final `shutil.move` into the project succeeds. -/
structure PkgOracle where
  writeFlatlistOk : Bool
  mkflatOk : Bool
  mkflatOutExists : Bool
  moveOk : Bool
  deriving DecidableEq

/-- File-system effects performed by `_package_asset_archive`, in
order: creating the staging directory, copying one asset into it,
writing the flatlist text into it, invoking mkflat, moving the
produced archive into the project output tree, and removing the
staging directory with all its contents (`shutil.rmtree`). -/
inductive PkgEff where
  | mkStaging
  | copyToStaging (stagingName : List Char)
  | writeFlatlist (content : List Char)
  | runMkflat
  | moveArchive
  | rmStaging
  deriving DecidableEq

namespace GT

/-- The copy loop of `_package_asset_archive` in `gravitool_main.py`:
an existing source is copied (a failing copy aborts the whole job), a
missing source is skipped with a warning and the loop continues.
Returns the copy effects performed, whether any asset was copied
(`assets_copied_for_mkflat` non-empty), and whether the loop aborted
on a copy failure. -/
def copyLoop : List PkgEntry → List PkgEff × Bool × Bool
  | [] => ([], false, false)
  | e :: rest =>
    if e.srcExists then
      if e.copyOk then
        let r := copyLoop rest
        (PkgEff.copyToStaging e.stagingName :: r.1, true, r.2.2)
      else ([], false, true)
    else copyLoop rest

/-- Embedding of `_package_asset_archive` from `gravitool_main.py`.
Returns the Boolean the function returns and the ordered file-system
effects.  Mirrors the source's control flow: empty input returns
success before any file-system access; a copy failure removes staging
and fails; no copied assets removes staging and succeeds with no
archive; a flatlist write failure removes staging and fails; an mkflat
failure (or missing mkflat output) returns failure WITHOUT reaching
the `finally` that removes staging, exactly as the `return False`
before the final `try` block does in the source; the final move runs
inside a `try`/`finally` whose `finally` removes staging on both the
success and the failure path. -/
def packageAssetArchive (mkflatFileType : List Char) (files : List PkgEntry)
    (o : PkgOracle) : Bool × List PkgEff :=
  if files.isEmpty then (true, [])
  else
    let r := copyLoop files
    let effs0 := PkgEff.mkStaging :: r.1
    if r.2.2 then (false, effs0 ++ [PkgEff.rmStaging])
    else if !r.2.1 then (true, effs0 ++ [PkgEff.rmStaging])
    else if !o.writeFlatlistOk then (false, effs0 ++ [PkgEff.rmStaging])
    else
      let effs1 := effs0
        ++ [PkgEff.writeFlatlist (buildFlatlist mkflatFileType (files.map (·.stagingName))),
            PkgEff.runMkflat]
      if !o.mkflatOk || !o.mkflatOutExists then (false, effs1)
      else if o.moveOk then (true, effs1 ++ [PkgEff.moveArchive, PkgEff.rmStaging])
      else (false, effs1 ++ [PkgEff.rmStaging])

end GT

namespace CNP

/-- The copy loop of `_package_asset_archive` in `cnpmodtool.py`: a
missing source or a failing copy both abort the whole job.  Returns
the copy effects performed and whether the loop aborted. -/
def copyLoop : List PkgEntry → List PkgEff × Bool
  | [] => ([], false)
  | e :: rest =>
    if e.srcExists then
      if e.copyOk then
        let r := copyLoop rest
        (PkgEff.copyToStaging e.stagingName :: r.1, r.2)
      else ([], true)
    else ([], true)

/-- Embedding of `_package_asset_archive` from `cnpmodtool.py`: as in
`gravitool_main.py` but a missing source aborts the job, and the
mkflat-failure path removes the staging directory explicitly before
returning failure. -/
def packageAssetArchive (mkflatFileType : List Char) (files : List PkgEntry)
    (o : PkgOracle) : Bool × List PkgEff :=
  if files.isEmpty then (true, [])
  else
    let r := copyLoop files
    let effs0 := PkgEff.mkStaging :: r.1
    if r.2 then (false, effs0 ++ [PkgEff.rmStaging])
    else if !o.writeFlatlistOk then (false, effs0 ++ [PkgEff.rmStaging])
    else
      let effs1 := effs0
        ++ [PkgEff.writeFlatlist (buildFlatlist mkflatFileType (files.map (·.stagingName))),
            PkgEff.runMkflat]
      if !o.mkflatOk || !o.mkflatOutExists then (false, effs1 ++ [PkgEff.rmStaging])
      else if o.moveOk then (true, effs1 ++ [PkgEff.moveArchive, PkgEff.rmStaging])
      else (false, effs1 ++ [PkgEff.rmStaging])

end CNP

/-- Claim C5: for an empty entry list both versions of
`_package_asset_archive` return success before touching the file
system — no staging directory, no writes, no archive. -/
theorem packageAssetArchive_empty (mkflatFileType : List Char) (o : PkgOracle) :
    GT.packageAssetArchive mkflatFileType [] o = (true, []) ∧
    CNP.packageAssetArchive mkflatFileType [] o = (true, []) :=
  ⟨rfl, rfl⟩

theorem cnp_copyLoop_missing_aborts :
    ∀ {files : List PkgEntry}, (∃ e ∈ files, e.srcExists = false) →
      (CNP.copyLoop files).2 = true := by
  intro files h
  induction files with
  | nil => simp at h
  | cons a l ih =>
    rw [CNP.copyLoop]
    by_cases ha : a.srcExists = true
    · rw [if_pos ha]
      have hl : ∃ e ∈ l, e.srcExists = false := by
        rcases h with ⟨e, he, hex⟩
        rcases List.mem_cons.1 he with rfl | he'
        · rw [ha] at hex
          cases hex
        · exact ⟨e, he', hex⟩
      by_cases hc : a.copyOk = true
      · rw [if_pos hc]
        exact ih hl
      · rw [if_neg hc]
    · rw [if_neg ha]

theorem cnp_copyLoop_effects_copies :
    ∀ {files : List PkgEntry} {x : PkgEff}, x ∈ (CNP.copyLoop files).1 →
      ∃ n, x = PkgEff.copyToStaging n := by
  intro files x h
  induction files with
  | nil => simp [CNP.copyLoop] at h
  | cons a l ih =>
    rw [CNP.copyLoop] at h
    by_cases ha : a.srcExists = true
    · rw [if_pos ha] at h
      by_cases hc : a.copyOk = true
      · rw [if_pos hc] at h
        rcases List.mem_cons.1 h with rfl | h'
        · exact ⟨a.stagingName, rfl⟩
        · exact ih h'
      · rw [if_neg hc] at h
        simp at h
    · rw [if_neg ha] at h
      simp at h

theorem gt_copyLoop_all_missing :
    ∀ {files : List PkgEntry}, (∀ e ∈ files, e.srcExists = false) →
      GT.copyLoop files = ([], false, false) := by
  intro files h
  induction files with
  | nil => rfl
  | cons a l ih =>
    rw [GT.copyLoop, if_neg (by simp [h a (List.mem_cons_self _ _)])]
    exact ih (fun e he => h e (List.mem_cons_of_mem a he))

/-- Counterexample to claim C1: in `gravitool_main.py`, a job whose
only entry has a missing source file is not aborted as a failure —
`_package_asset_archive` skips the entry and returns `True`
(success with no archive), contradicting the claimed failure result. -/
theorem packageAssetArchive_missing_claim_false :
    (GT.packageAssetArchive "texture".toList
        [⟨"proj/prepared_textures/a.texture".toList, "a.texture".toList, false, true⟩]
        ⟨true, true, true, true⟩).1 = true := by
  decide

/-- Claim C1 as amended: when at least one source file is missing at
copy time, `cnpmodtool.py` aborts the whole job as a failure with no
archive moved into the output tree and the staging directory removed;
`gravitool_main.py` instead skips missing sources and continues, and
in particular when every source is missing it returns success with no
archive (and the staging directory removed). -/
theorem packageAssetArchive_missing_source
    (mkflatFileType : List Char) (files : List PkgEntry) (o : PkgOracle)
    (hne : files ≠ [])
    (hmiss : ∃ e ∈ files, e.srcExists = false) :
    ((CNP.packageAssetArchive mkflatFileType files o).1 = false ∧
      PkgEff.moveArchive ∉ (CNP.packageAssetArchive mkflatFileType files o).2 ∧
      PkgEff.rmStaging ∈ (CNP.packageAssetArchive mkflatFileType files o).2) ∧
    ((∀ e ∈ files, e.srcExists = false) →
      (GT.packageAssetArchive mkflatFileType files o).1 = true ∧
      PkgEff.moveArchive ∉ (GT.packageAssetArchive mkflatFileType files o).2 ∧
      PkgEff.rmStaging ∈ (GT.packageAssetArchive mkflatFileType files o).2) := by
  have hne' : files.isEmpty = false := by
    cases files with
    | nil => exact absurd rfl hne
    | cons a l => rfl
  constructor
  · have hab := cnp_copyLoop_missing_aborts hmiss
    simp only [CNP.packageAssetArchive, hne', Bool.false_eq_true, if_false, hab,
      if_true]
    refine ⟨trivial, ?_, ?_⟩
    · intro hmem
      rcases List.mem_cons.1 hmem with h | h
      · cases h
      · rcases List.mem_append.1 h with h' | h'
        · rcases cnp_copyLoop_effects_copies h' with ⟨n, hn⟩
          cases hn
        · simp at h'
    · exact List.mem_cons_of_mem _ (List.mem_append.2 (Or.inr (List.mem_singleton.2 rfl)))
  · intro hall
    have hcl := gt_copyLoop_all_missing hall
    simp only [GT.packageAssetArchive, hne', Bool.false_eq_true, if_false, hcl,
      Bool.not_false, if_true]
    exact ⟨trivial, by decide, by decide⟩

/-- Witness for the amended claim C1 at a concrete one-entry job whose
source file is missing. -/
theorem packageAssetArchive_missing_source_case :
    (CNP.packageAssetArchive "texture".toList
        [⟨"proj/prepared_textures/a.texture".toList, "a.texture".toList, false, true⟩]
        ⟨true, true, true, true⟩).1 = false :=
  (packageAssetArchive_missing_source "texture".toList
    [⟨"proj/prepared_textures/a.texture".toList, "a.texture".toList, false, true⟩]
    ⟨true, true, true, true⟩ (List.cons_ne_nil _ _)
    ⟨_, List.mem_cons_self _ _, rfl⟩).1.1

/-- Claim C2 fails on `gravitool_main.py`: when every source was copied
and the flatlist written but the mkflat invocation fails, the function
returns failure without removing the staging directory — the `return
False` sits before the `try`/`finally` whose comment claims the
cleanup, so the `finally` never runs on this path. -/
theorem gt_mkflat_failure_staging_leak :
    (GT.packageAssetArchive "texture".toList
        [⟨"proj/prepared_textures/a.texture".toList, "a.texture".toList, true, true⟩]
        ⟨true, false, false, true⟩).1 = false ∧
    PkgEff.mkStaging ∈ (GT.packageAssetArchive "texture".toList
        [⟨"proj/prepared_textures/a.texture".toList, "a.texture".toList, true, true⟩]
        ⟨true, false, false, true⟩).2 ∧
    PkgEff.rmStaging ∉ (GT.packageAssetArchive "texture".toList
        [⟨"proj/prepared_textures/a.texture".toList, "a.texture".toList, true, true⟩]
        ⟨true, false, false, true⟩).2 := by
  decide

/-- Outside-world behaviour for one `_generate_desc_addpack_file` run:
whether the template file exists and decodes in some attempted
encoding, whether writing the temporary `.engcfg2` file succeeds,
whether the `pd2cfgp` compile reports success, whether the compiled
temporary `.addpack` output exists afterwards, and whether the final
`shutil.move` succeeds. -/
structure DescOracle where
  templateReadable : Bool
  tempWriteOk : Bool
  compileOk : Bool
  compiledExists : Bool
  moveOk : Bool
  deriving DecidableEq

/-- File-system effects of `_generate_desc_addpack_file`, in order:
creating the project `CORE` directory, creating `users/modwork`,
writing the temporary `.engcfg2`, running `pd2cfgp`, removing the
temporary `.engcfg2`, removing the temporary `.addpack` output,
creating the final descriptor's directory, and moving the compiled
output onto `CORE/desc.addpack` (the only write that ever touches the
final descriptor location). -/
inductive DescEff where
  | mkCoreDir
  | mkModworkDir
  | writeTempCfg
  | runPd2cfgp
  | removeTempCfg
  | removeTempOut
  | mkFinalDir
  | moveToFinal
  deriving DecidableEq

namespace GT

/-- Embedding of `_generate_desc_addpack_file` from
`gravitool_main.py`: the control flow and file-system effects of the
source, with the pure in-memory template substitutions (placeholder
replacement, version and type rewriting) elided since they only shape
the text written to the temporary file.  Returns the Boolean result
and the ordered effects. -/
def generateDescAddpack (o : DescOracle) : Bool × List DescEff :=
  let e0 := [DescEff.mkCoreDir]
  if !o.templateReadable then (false, e0)
  else
    let e1 := e0 ++ [DescEff.mkModworkDir]
    if !o.tempWriteOk then (false, e1)
    else
      let e2 := e1 ++ [DescEff.writeTempCfg, DescEff.runPd2cfgp, DescEff.removeTempCfg]
      if !o.compileOk || !o.compiledExists then
        (false, e2 ++ if o.compiledExists then [DescEff.removeTempOut] else [])
      else if o.moveOk then
        (true, e2 ++ [DescEff.mkFinalDir, DescEff.moveToFinal])
      else
        (false, e2 ++ [DescEff.mkFinalDir, DescEff.removeTempOut])

end GT

namespace CNP

/-- Embedding of `_generate_desc_addpack_file` from `cnpmodtool.py`:
as in `gravitool_main.py` but without the `CORE` directory creation at
entry and without creating the final descriptor's directory before the
move. -/
def generateDescAddpack (o : DescOracle) : Bool × List DescEff :=
  if !o.templateReadable then (false, [])
  else
    let e1 := [DescEff.mkModworkDir]
    if !o.tempWriteOk then (false, e1)
    else
      let e2 := e1 ++ [DescEff.writeTempCfg, DescEff.runPd2cfgp, DescEff.removeTempCfg]
      if !o.compileOk || !o.compiledExists then
        (false, e2 ++ if o.compiledExists then [DescEff.removeTempOut] else [])
      else if o.moveOk then
        (true, e2 ++ [DescEff.moveToFinal])
      else
        (false, e2 ++ [DescEff.removeTempOut])

end CNP

/-- Claim C9: in both files, whenever descriptor generation fails for
any reason (unreadable template, temporary-write failure, non-zero
compile exit code, missing compiled output, or failing final move) the
final `CORE/desc.addpack` location receives no write, and on success
it is written exactly once by the final move — never partially. -/
theorem generateDescAddpack_no_partial_final (o : DescOracle) :
    (((GT.generateDescAddpack o).1 = false →
        DescEff.moveToFinal ∉ (GT.generateDescAddpack o).2) ∧
      ((GT.generateDescAddpack o).1 = true →
        DescEff.moveToFinal ∈ (GT.generateDescAddpack o).2)) ∧
    (((CNP.generateDescAddpack o).1 = false →
        DescEff.moveToFinal ∉ (CNP.generateDescAddpack o).2) ∧
      ((CNP.generateDescAddpack o).1 = true →
        DescEff.moveToFinal ∈ (CNP.generateDescAddpack o).2)) := by
  rcases o with ⟨t, w, c, e, m⟩
  cases t <;> cases w <;> cases c <;> cases e <;> cases m <;> decide

/-- Witness for claim C9 at a concrete failing run (unreadable
template). -/
theorem generateDescAddpack_no_partial_final_case :
    DescEff.moveToFinal ∉ (GT.generateDescAddpack ⟨false, true, true, true, true⟩).2 :=
  (generateDescAddpack_no_partial_final ⟨false, true, true, true, true⟩).1.1 (by decide)
